import Mathlib

/-!
Verification of the data-dictionary-generator backend processors and the
version service, against a shallow embedding of the Python sources:

* `src/backend/src/processors/type_inferrer.py`   (`TypeInferrer`)
* `src/backend/src/services/version_service.py`   (`VersionService`)
* `src/backend/src/processors/json_parser.py`     (`JSONParser`, `FieldMetadata`)
* `src/backend/src/processors/mongodb_parser.py`  (`MongoDBParser`)
* `src/backend/src/processors/pii_detector.py`    (`PIIDetector`)
* `src/backend/src/processors/quality_analyzer.py`(`QualityAnalyzer`)
* `src/backend/src/processors/ai_generator.py`    (`AIDescriptionGenerator`)
* `src/backend/src/processors/xml_parser.py`      (`XMLParser`)

Python machine floats are modelled as rationals (`ℚ`); all arithmetic in the
embedded fragments stays well inside the range where float arithmetic is
exact or where rounding cannot affect the compared predicates.  Python dicts
are modelled as insertion-ordered association lists.
-/

/-! ## JSON values

A JSON value as the parsers receive it from `ijson`.  Python distinguishes
`bool` from `int` (`isinstance(value, bool)` is tested before
`isinstance(value, int)` in `FieldMetadata.observe_value`), `int` from
`float`, and has `None`.  Objects keep their key order, like Python dicts. -/
inductive Json where
  | null : Json
  | bool (b : Bool) : Json
  | int (n : Int) : Json
  | float (q : ℚ) : Json
  | str (s : String) : Json
  | arr (xs : List Json) : Json
  | obj (kvs : List (String × Json)) : Json

mutual
/-- Python `==` on JSON values (used by `in` membership tests), as a boolean
function; structural equality. -/
def jsonBEq : Json → Json → Bool
  | .null, .null => true
  | .bool a, .bool b => a == b
  | .int a, .int b => a == b
  | .float a, .float b => a == b
  | .str a, .str b => a == b
  | .arr a, .arr b => jsonListBEq a b
  | .obj a, .obj b => jsonMembersBEq a b
  | _, _ => false

def jsonListBEq : List Json → List Json → Bool
  | [], [] => true
  | x :: xs, y :: ys => jsonBEq x y && jsonListBEq xs ys
  | _, _ => false

def jsonMembersBEq : List (String × Json) → List (String × Json) → Bool
  | [], [] => true
  | (k1, v1) :: xs, (k2, v2) :: ys => k1 == k2 && jsonBEq v1 v2 && jsonMembersBEq xs ys
  | _, _ => false
end

/-- `type(item).__name__` for a Python value deserialized from JSON
(used for `array_item_types` in `FieldMetadata.observe_value`). -/
def pyTypeName : Json → String
  | .null => "NoneType"
  | .bool _ => "bool"
  | .int _ => "int"
  | .float _ => "float"
  | .str _ => "str"
  | .arr _ => "list"
  | .obj _ => "dict"

namespace TypeInferrer

/-- Keys of `collections.Counter(types_seen)` in insertion order: first
occurrence order of the list. -/
def counterKeys (types_seen : List String) : List String :=
  types_seen.foldl (fun acc t => if t ∈ acc then acc else acc ++ [t]) []

/-- `type_counts.most_common(1)[0][0]`: the key with the highest count;
Python's tie-break returns the earliest-inserted key, which `foldl` with a
strict comparison reproduces. -/
def mostCommonKey (effective : List String) : String :=
  match counterKeys effective with
  | [] => ""
  | k :: ks => ks.foldl (fun best t => if effective.count t > effective.count best then t else best) k

/-- The null-dropping step of `infer_type` (type_inferrer.py, lines 31-36):
when more than one type was seen and `null` is among them, restrict the
counts to the non-null observations (the inner non-emptiness test mirrors
`if non_null_counts`). -/
def effectiveTypes (types_seen : List String) : List String :=
  if (counterKeys types_seen).length > 1 ∧ "null" ∈ types_seen then
    if types_seen.filter (fun t => t ≠ "null") ≠ [] then
      types_seen.filter (fun t => t ≠ "null")
    else types_seen
  else types_seen

/-- `TypeInferrer.infer_type` (type_inferrer.py, lines 14-46).  Input is the
list of observed type tags; output is `(data_type, confidence_score)` with
the confidence in percent as an exact rational.  The total after the null
drop is the length of `effectiveTypes`, and the integer/float widening
branch tests key membership in the post-drop counter. -/
def inferType (types_seen : List String) : String × ℚ :=
  if types_seen = [] then ("unknown", 0)
  else if "integer" ∈ counterKeys (effectiveTypes types_seen)
      ∧ "float" ∈ counterKeys (effectiveTypes types_seen) then
    ("float",
      (((effectiveTypes types_seen).count "integer"
        + (effectiveTypes types_seen).count "float" : ℕ) : ℚ)
      / ((effectiveTypes types_seen).length : ℚ) * 100)
  else
    (mostCommonKey (effectiveTypes types_seen),
      ((effectiveTypes types_seen).count (mostCommonKey (effectiveTypes types_seen)) : ℚ)
      / ((effectiveTypes types_seen).length : ℚ) * 100)

end TypeInferrer

/-! ## Schema hash (`VersionService._calculate_schema_hash`) -/

/-- The slice of a parsed-field dictionary (output of
`FieldMetadata.to_dict`) that `_calculate_schema_hash` reads: the field path
and the `types_seen` list. -/
structure ParsedField where
  field_path : String
  types_seen : List String
deriving DecidableEq

/-- `f"{field['field_path']}:{primary_type}"` where
`primary_type = types[0] if types else "unknown"`
(version_service.py, lines 297-301). -/
def fieldSignature (f : ParsedField) : String :=
  f.field_path ++ ":" ++ (match f.types_seen with | [] => "unknown" | t :: _ => t)

/-- Comparison used by `sorted(fields, key=lambda x: x["field_path"])`. -/
def pathLe (a b : ParsedField) : Prop := a.field_path ≤ b.field_path

instance : DecidableRel pathLe := fun a b => inferInstanceAs (Decidable (a.field_path ≤ b.field_path))

instance : IsTotal ParsedField pathLe := ⟨fun a b => le_total a.field_path b.field_path⟩

instance : IsTrans ParsedField pathLe := ⟨fun _ _ _ h1 h2 => le_trans h1 h2⟩

/-- The string `"|".join(field_signatures)` that
`VersionService._calculate_schema_hash` feeds to SHA-256
(version_service.py, lines 287-305).  The digest itself is a fixed
deterministic function of this string, so two field lists get the same
digest whenever their `schemaString`s are equal.  Python's `sorted` is a
stable sort by `field_path`; a stable insertion sort models it. -/
def schemaString (fields : List ParsedField) : String :=
  String.intercalate "|" ((List.insertionSort pathLe fields).map fieldSignature)

/-! ## Version comparison (`VersionService.compare_versions`) -/

/-- The attributes of a stored `Field` row that `compare_versions`,
`_fields_differ` and `_is_breaking_change` read. -/
structure DbField where
  field_path : String
  data_type : String
  semantic_type : Option String
  is_nullable : Bool
  is_array : Bool
  is_pii : Bool
deriving DecidableEq

/-- `VersionService._fields_differ` (version_service.py, lines 480-498). -/
def fieldsDiffer (v1 v2 : DbField) : Bool :=
  v1.data_type ≠ v2.data_type
    || v1.semantic_type ≠ v2.semantic_type
    || v1.is_nullable ≠ v2.is_nullable
    || v1.is_array ≠ v2.is_array
    || v1.is_pii ≠ v2.is_pii

/-- `VersionService._is_breaking_change` (version_service.py, lines 450-478). -/
def isBreakingChange (v1 v2 : DbField) : Bool :=
  if v1.data_type ≠ v2.data_type then true
  else if v1.is_nullable && !v2.is_nullable then true
  else if v1.is_array ≠ v2.is_array then true
  else false

/-- Kind of a change record (`change_type` string in the code). -/
inductive ChangeType where
  | added
  | removed
  | modified
deriving DecidableEq

/-- One entry of the `changes` list built by `compare_versions`; only the
keys the claims are about. -/
structure ChangeRec where
  change_type : ChangeType
  field_path : String
  is_breaking : Bool
deriving DecidableEq

/-- One step of building `{f.field_path: f for f in fields}`: a later field
with the same path overwrites the stored value but keeps the key position,
as Python dicts do. -/
def dictInsert (m : List (String × DbField)) (k : String) (v : DbField) :
    List (String × DbField) :=
  if m.any (fun kv => kv.1 = k) then
    m.map (fun kv => if kv.1 = k then (k, v) else kv)
  else m ++ [(k, v)]

/-- `v1_map = {f.field_path: f for f in v1_fields}` as an insertion-ordered
association list. -/
def buildMap (fields : List DbField) : List (String × DbField) :=
  fields.foldl (fun m f => dictInsert m f.field_path f) []

/-- Key membership `path in map`. -/
def hasKey (m : List (String × DbField)) (k : String) : Bool :=
  m.any (fun kv => kv.1 = k)

/-- The `added` records of `compare_versions`: iterate `v2_map`, keep the
paths absent from `v1_map`; `is_breaking` is hard-coded `False`
(version_service.py, lines 378-388). -/
def addedChanges (m1 m2 : List (String × DbField)) : List ChangeRec :=
  (m2.filter (fun kv => !hasKey m1 kv.1)).map
    (fun kv => { change_type := .added, field_path := kv.1, is_breaking := false })

/-- The `removed` records: iterate `v1_map`, keep the paths absent from
`v2_map`; `is_breaking` is hard-coded `True` (lines 390-400). -/
def removedChanges (m1 m2 : List (String × DbField)) : List ChangeRec :=
  (m1.filter (fun kv => !hasKey m2 kv.1)).map
    (fun kv => { change_type := .removed, field_path := kv.1, is_breaking := true })

/-- The `modified` records: for every path in both maps whose fields differ,
one record with `is_breaking = _is_breaking_change(v1_field, v2_field)`
(lines 402-416).  Python iterates `set(v1) & set(v2)` in unspecified set
order; this model iterates in `v1_map` insertion order, which fixes one of
the admissible orders (no claim depends on the order of this sublist). -/
def modifiedChanges (m1 m2 : List (String × DbField)) : List ChangeRec :=
  m1.filterMap (fun kv =>
    match m2.lookup kv.1 with
    | none => none
    | some f2 =>
        if fieldsDiffer kv.2 f2 then
          some { change_type := .modified, field_path := kv.1,
                 is_breaking := isBreakingChange kv.2 f2 }
        else none)

/-- The `changes` list of `VersionService.compare_versions`
(version_service.py, lines 374-431), restricted to the per-field inputs: the
database fetch, summary block and version metadata are outside the model. -/
def compareVersions (v1_fields v2_fields : List DbField) : List ChangeRec :=
  addedChanges (buildMap v1_fields) (buildMap v2_fields)
    ++ removedChanges (buildMap v1_fields) (buildMap v2_fields)
    ++ modifiedChanges (buildMap v1_fields) (buildMap v2_fields)

/-- Paths of the change records with a given `change_type`. -/
def pathsWithType (cs : List ChangeRec) (t : ChangeType) : List String :=
  (cs.filter (fun c => c.change_type = t)).map (fun c => c.field_path)

/-! ## JSON field extraction (`JSONParser`, `FieldMetadata`) -/

/-- Mutable state of a `FieldMetadata` accumulator
(json_parser.py, lines 147-175). -/
structure FieldMeta where
  field_path : String
  field_name : String
  parent_path : String
  nesting_level : Nat
  values : List Json
  types_seen : List String
  null_count : Nat
  total_count : Nat
  is_array : Bool
  array_item_types : List String

/-- `FieldMetadata.__init__`. -/
def FieldMeta.init (field_path field_name parent_path : String) (nesting_level : Nat) :
    FieldMeta :=
  { field_path := field_path, field_name := field_name, parent_path := parent_path,
    nesting_level := nesting_level, values := [], types_seen := [],
    null_count := 0, total_count := 0, is_array := false, array_item_types := [] }

/-- `self.types_seen.add(t)`: Python `set.add`.  The set is modelled as its
insertion-ordered list of distinct elements; only membership in it is
observable through the claims. -/
def setAdd (s : List String) (t : String) : List String :=
  if t ∈ s then s else s ++ [t]

/-- `FieldMetadata._add_sample` (json_parser.py, lines 201-204): append the
value when fewer than 10 samples are stored and the value is not yet among
them (Python `in`, i.e. `==` on values). -/
def addSample (values : List Json) (v : Json) : List Json :=
  if values.length < 10 ∧ values.all (fun w => !jsonBEq w v) then values ++ [v]
  else values

/-- `FieldMetadata.observe_value` (json_parser.py, lines 177-199). -/
def observeValue (m : FieldMeta) (v : Json) : FieldMeta :=
  let m := { m with total_count := m.total_count + 1 }
  match v with
  | .null => { m with null_count := m.null_count + 1, types_seen := setAdd m.types_seen "null" }
  | .bool b => { m with types_seen := setAdd m.types_seen "boolean",
                        values := addSample m.values (.bool b) }
  | .int n => { m with types_seen := setAdd m.types_seen "integer",
                       values := addSample m.values (.int n) }
  | .float q => { m with types_seen := setAdd m.types_seen "float",
                         values := addSample m.values (.float q) }
  | .str s => { m with types_seen := setAdd m.types_seen "string",
                       values := addSample m.values (.str s) }
  | .arr xs => { m with is_array := true, types_seen := setAdd m.types_seen "array",
                        array_item_types :=
                          (xs.take 10).foldl (fun acc it => setAdd acc (pyTypeName it))
                            m.array_item_types }
  | .obj _ => { m with types_seen := setAdd m.types_seen "object" }

/-- The `fields_map` ordered dict: `field_path → FieldMetadata`. -/
abbrev FMap := List (String × FieldMeta)

/-- `field_path in fields_map`. -/
def fmapHas (m : FMap) (k : String) : Bool := m.any (fun kv => kv.1 = k)

/-- `fields_map[field_path] = meta` for a fresh path (appends, preserving
dict insertion order). -/
def fmapAdd (m : FMap) (k : String) (meta : FieldMeta) : FMap := m ++ [(k, meta)]

/-- In-place mutation `fields_map[field_path].observe_value(value)` etc. -/
def fmapUpdate (m : FMap) (k : String) (f : FieldMeta → FieldMeta) : FMap :=
  m.map (fun kv => if kv.1 = k then (kv.1, f kv.2) else kv)

/-- `f"{parent_path}.{key}" if parent_path else key`. -/
def childPath (parent_path key : String) : String :=
  if parent_path = "" then key else parent_path ++ "." ++ key

/-- `isinstance(value, (dict, list))`. -/
def Json.isDictOrList : Json → Bool
  | .obj _ => true
  | .arr _ => true
  | _ => false

mutual
/-- `JSONParser._extract_fields` (json_parser.py, lines 113-146), the
recursion over one record.  `maxDepth` is `self.max_depth`. -/
def extractFields (maxDepth : Nat) (obj : Json) (parentPath : String) (m : FMap)
    (depth : Nat) : FMap :=
  if depth > maxDepth then m
  else
    match obj with
    | .obj kvs => extractMembers maxDepth kvs parentPath m depth
    | .arr xs => extractItems maxDepth xs 10 parentPath m depth
    | _ => m

/-- The `for key, value in obj.items()` loop of `_extract_fields`. -/
def extractMembers (maxDepth : Nat) (kvs : List (String × Json)) (parentPath : String)
    (m : FMap) (depth : Nat) : FMap :=
  match kvs with
  | [] => m
  | (key, value) :: rest =>
      let fieldPath := childPath parentPath key
      let m := if fmapHas m fieldPath then m
               else fmapAdd m fieldPath (FieldMeta.init fieldPath key parentPath depth)
      let m := fmapUpdate m fieldPath (fun meta => observeValue meta value)
      let m := if value.isDictOrList then extractFields maxDepth value fieldPath m (depth + 1)
               else m
      extractMembers maxDepth rest parentPath m depth

/-- The `for _i, item in enumerate(obj[:10])` loop of `_extract_fields`:
recurse into the first ten array items at the same parent path and depth. -/
def extractItems (maxDepth : Nat) (xs : List Json) (budget : Nat) (parentPath : String)
    (m : FMap) (depth : Nat) : FMap :=
  match budget, xs with
  | 0, _ => m
  | _, [] => m
  | b + 1, x :: rest =>
      extractItems maxDepth rest b parentPath (extractFields maxDepth x parentPath m depth) depth
end

/-- Result of `JSONParser.parse_file`, restricted to the keys the claims
read (`fields` keeps the accumulators rather than their `to_dict` image). -/
structure ParseResult where
  fields : FMap
  total_records : Nat
  is_array : Bool

/-- The record loop of `JSONParser._parse_array_root` (json_parser.py,
lines 65-91): process items until `records_processed >= self.max_samples`,
counting the records actually processed. -/
def arrayRootLoop (maxSamples maxDepth : Nat) (items : List Json) (m : FMap)
    (processed : Nat) : FMap × Nat :=
  match items with
  | [] => (m, processed)
  | item :: rest =>
      if processed ≥ maxSamples then (m, processed)
      else arrayRootLoop maxSamples maxDepth rest (extractFields maxDepth item "" m 0)
        (processed + 1)

/-- `JSONParser._parse_array_root`. -/
def parseArrayRoot (maxSamples maxDepth : Nat) (items : List Json) : ParseResult :=
  let (m, processed) := arrayRootLoop maxSamples maxDepth items [] 0
  { fields := m, total_records := processed, is_array := true }

/-- `JSONParser._parse_object_root` (json_parser.py, lines 93-111):
`ijson.items(f, '')` yields the one root value, so the loop body runs once
and `total_records` is the constant 1. -/
def parseObjectRoot (maxDepth : Nat) (root : Json) : ParseResult :=
  { fields := extractFields maxDepth root "" [] 0, total_records := 1, is_array := false }

/-- `JSONParser.parse_file` (json_parser.py, lines 31-53) on an
already-deserialized document: the file starts with `[` exactly when the
root value is an array. -/
def parseFile (maxSamples maxDepth : Nat) (root : Json) : ParseResult :=
  match root with
  | .arr items => parseArrayRoot maxSamples maxDepth items
  | _ => parseObjectRoot maxDepth root

/-- `JSONParser.__init__` defaults: `max_samples: int = 1000`,
`max_depth: int = 10`. -/
def defaultMaxSamples : Nat := 1000

/-- `JSONParser.__init__` default `max_depth`. -/
def defaultMaxDepth : Nat := 10

/-! ## MongoDB Extended JSON parser (`MongoDBParser`) -/

/-- `key in value` for a Python dict. -/
def objMember (kvs : List (String × Json)) (k : String) : Bool :=
  kvs.any (fun kv => kv.1 = k)

/-- `value.get(key)` for a Python dict. -/
def objGet (kvs : List (String × Json)) (k : String) : Option Json :=
  kvs.lookup k

/-- `MongoDBFieldMetadata.OBJECTID_PATTERN`: `^[a-f0-9]{24}$` with
`re.IGNORECASE`. -/
def isHex24 (s : String) : Bool :=
  s.data.length = 24 &&
    s.data.all (fun c => c.isDigit || ('a' ≤ c ∧ c ≤ 'f') || ('A' ≤ c ∧ c ≤ 'F'))

/-- Tail of `MongoDBFieldMetadata.ISO_DATE_PATTERN` after the seconds:
`(\.\d{3})?Z?$`. -/
def isoDateTail : List Char → Bool
  | [] => true
  | ['Z'] => true
  | ['.', a, b, c] => a.isDigit && b.isDigit && c.isDigit
  | ['.', a, b, c, 'Z'] => a.isDigit && b.isDigit && c.isDigit
  | _ => false

/-- `ISO_DATE_PATTERN`: `^\d{4}-\d{2}-\d{2}T\d{2}:\d{2}:\d{2}(\.\d{3})?Z?$`
(ASCII digits). -/
def matchesIsoDate (s : String) : Bool :=
  match s.data with
  | y1 :: y2 :: y3 :: y4 :: '-' :: m1 :: m2 :: '-' :: d1 :: d2 :: 'T'
      :: h1 :: h2 :: ':' :: n1 :: n2 :: ':' :: s1 :: s2 :: rest =>
      y1.isDigit && y2.isDigit && y3.isDigit && y4.isDigit
        && m1.isDigit && m2.isDigit && d1.isDigit && d2.isDigit
        && h1.isDigit && h2.isDigit && n1.isDigit && n2.isDigit
        && s1.isDigit && s2.isDigit && isoDateTail rest
  | _ => false

/-- The common effect of recognizing a MongoDB type wrapper in
`MongoDBFieldMetadata.observe_value`: bump `total_count`, add the type tag,
record the unwrapped sample, and return (no recursion into the wrapper). -/
def markMongo (m : FieldMeta) (tag : String) (sample : Json) : FieldMeta :=
  { m with total_count := m.total_count + 1,
           types_seen := setAdd m.types_seen tag,
           values := addSample m.values sample }

/-- `MongoDBFieldMetadata.observe_value` (mongodb_parser.py, lines 31-85).
Each wrapper check that fails falls through to the next one; when none
matches, the base-class `observe_value` runs. -/
def mongoObserveValue (m : FieldMeta) (v : Json) : FieldMeta :=
  match v with
  | .obj kvs =>
      let oidHit : Option Json :=
        match objGet kvs "$oid" with
        | some (.str s) => if isHex24 s then some (.str s) else none
        | _ => none
      let dateHit : Option Json :=
        match objGet kvs "$date" with
        | some (.str s) => if matchesIsoDate s then some (.str s) else none
        | some (.obj dkvs) => objGet dkvs "$numberLong"
        | _ => none
      let longHit : Option Json :=
        match objGet kvs "$numberLong" with
        | some (.str s) => some (.str s)
        | _ => none
      let decimalHit : Option Json :=
        match objGet kvs "$numberDecimal" with
        | some (.str s) => some (.str s)
        | _ => none
      let binaryHit : Option Json :=
        match objGet kvs "$binary" with
        | some (.obj _) => some (.str "<binary>")
        | _ => none
      match oidHit with
      | some s => markMongo m "mongodb_objectid" s
      | none =>
        match dateHit with
        | some s => markMongo m "mongodb_date" s
        | none =>
          match longHit with
          | some s => markMongo m "mongodb_long" s
          | none =>
            match decimalHit with
            | some s => markMongo m "mongodb_decimal" s
            | none =>
              match binaryHit with
              | some s => markMongo m "mongodb_binary" s
              | none => observeValue m v
  | _ => observeValue m v

/-- `MongoDBParser._is_mongodb_type_wrapper` (mongodb_parser.py,
lines 158-173). -/
def isMongoTypeWrapper : Json → Bool
  | .obj kvs => objMember kvs "$oid" || objMember kvs "$date"
      || objMember kvs "$numberLong" || objMember kvs "$numberDecimal"
      || objMember kvs "$binary"
  | _ => false

mutual
/-- `MongoDBParser._extract_fields` (mongodb_parser.py, lines 106-156):
like the base parser, but a dict that is a MongoDB type wrapper is returned
from immediately (treated as a typed leaf), and recursion into child values
skips wrappers. -/
def mongoExtractFields (maxDepth : Nat) (obj : Json) (parentPath : String) (m : FMap)
    (depth : Nat) : FMap :=
  if depth > maxDepth then m
  else
    match obj with
    | .obj kvs =>
        if isMongoTypeWrapper (.obj kvs) then m
        else mongoExtractMembers maxDepth kvs parentPath m depth
    | .arr xs => mongoExtractItems maxDepth xs 10 parentPath m depth
    | _ => m

/-- The `for key, value in obj.items()` loop of the MongoDB
`_extract_fields`. -/
def mongoExtractMembers (maxDepth : Nat) (kvs : List (String × Json)) (parentPath : String)
    (m : FMap) (depth : Nat) : FMap :=
  match kvs with
  | [] => m
  | (key, value) :: rest =>
      let fieldPath := childPath parentPath key
      let m := if fmapHas m fieldPath then m
               else fmapAdd m fieldPath (FieldMeta.init fieldPath key parentPath depth)
      let m := fmapUpdate m fieldPath (fun meta => mongoObserveValue meta value)
      let m := if value.isDictOrList && !isMongoTypeWrapper value then
                 mongoExtractFields maxDepth value fieldPath m (depth + 1)
               else m
      mongoExtractMembers maxDepth rest parentPath m depth

/-- The `for _i, item in enumerate(obj[:10])` loop of the MongoDB
`_extract_fields`. -/
def mongoExtractItems (maxDepth : Nat) (xs : List Json) (budget : Nat) (parentPath : String)
    (m : FMap) (depth : Nat) : FMap :=
  match budget, xs with
  | 0, _ => m
  | _, [] => m
  | b + 1, x :: rest =>
      mongoExtractItems maxDepth rest b parentPath
        (mongoExtractFields maxDepth x parentPath m depth) depth
end

/-! ## PII detector (`PIIDetector`) -/

/-- The needle starts the haystack (character-wise). -/
def leadMatch : List Char → List Char → Bool
  | [], _ => true
  | _ :: _, [] => false
  | a :: as, b :: bs => a = b && leadMatch as bs

/-- Python substring test `needle in haystack` on strings. -/
def subOccursIn (needle : List Char) (haystack : List Char) : Bool :=
  leadMatch needle haystack ||
    match haystack with
    | [] => false
    | _ :: rest => subOccursIn needle rest

/-- `indicator in field_lower`. -/
def containsSub (haystack needle : String) : Bool :=
  subOccursIn needle.data haystack.data

/-- `PIIDetector.SSN_PATTERN`: `^\d{3}-\d{2}-\d{4}$`. -/
def matchesSSN (s : String) : Bool :=
  match s.data with
  | [a, b, c, '-', d, e, '-', f, g, h, i] =>
      a.isDigit && b.isDigit && c.isDigit && d.isDigit && e.isDigit
        && f.isDigit && g.isDigit && h.isDigit && i.isDigit
  | _ => false

/-- `\s` or `-`, the separator class of `PIIDetector.CC_PATTERN`. -/
def isCCSep (c : Char) : Bool := c = '-' || c.isWhitespace

/-- Read four ASCII digits from the front, returning them and the rest. -/
def grabFourDigits : List Char → Option (List Char × List Char)
  | a :: b :: c :: d :: rest =>
      if a.isDigit && b.isDigit && c.isDigit && d.isDigit then some ([a, b, c, d], rest)
      else none
  | _ => none

/-- Consume the optional `[\s-]?` separator (a separator is never a digit,
so the regex match is deterministic). -/
def dropOptSep : List Char → List Char
  | [] => []
  | c :: rest => if isCCSep c then rest else c :: rest

/-- `PIIDetector.CC_PATTERN`: `^\d{4}[\s-]?\d{4}[\s-]?\d{4}[\s-]?\d{4}$`;
returns the 16 digits (the `re.sub(r'[\s-]', '', value)` of a match). -/
def ccDigits (s : String) : Option (List Char) :=
  match grabFourDigits s.data with
  | none => none
  | some (g1, r1) =>
    match grabFourDigits (dropOptSep r1) with
    | none => none
    | some (g2, r2) =>
      match grabFourDigits (dropOptSep r2) with
      | none => none
      | some (g3, r3) =>
        match grabFourDigits (dropOptSep r3) with
        | none => none
        | some (g4, r4) => if r4 = [] then some (g1 ++ g2 ++ g3 ++ g4) else none

/-- `digits[-1::-2]` and `digits[-2::-2]`: alternating split of the reversed
digit list, `(odd_digits, even_digits)` in Luhn terms. -/
def altSplit : List Nat → List Nat × List Nat
  | [] => ([], [])
  | x :: rest =>
      let (evens, odds) := altSplit rest
      (x :: odds, evens)

/-- `digits_of(n)` of the `luhn_check` closure:
`[int(d) for d in str(n)]`, the decimal digits most significant first.
The fuel argument (initialized to `n`) makes the recursion structural; the
quotient chain `n, n/10, n/100, ...` reaches 0 well within `n` steps. -/
def digitsOfAux : Nat → Nat → List Nat
  | _, 0 => []
  | 0, _ => []
  | fuel + 1, n + 1 => digitsOfAux fuel ((n + 1) / 10) ++ [(n + 1) % 10]

/-- `digits_of(n)`; Python's `str(0)` is `"0"`, so `digits_of(0) = [0]`. -/
def digitsOf (n : Nat) : List Nat := if n = 0 then [0] else digitsOfAux n n

/-- The `luhn_check` closure of `PIIDetector._is_credit_card`
(pii_detector.py, lines 84-95): `sum(digits_of(d * 2))` is the decimal digit
sum of the doubled digit. -/
def luhnCheck (digits : List Nat) : Bool :=
  let (oddDigits, evenDigits) := altSplit digits.reverse
  let checksum := oddDigits.sum + (evenDigits.map (fun d => (digitsOf (d * 2)).sum)).sum
  checksum % 10 = 0

/-- `PIIDetector._is_credit_card` (pii_detector.py, lines 75-97). -/
def isCreditCard (s : String) : Bool :=
  match ccDigits s with
  | none => false
  | some ds => luhnCheck (ds.map (fun c => c.toNat - '0'.toNat))

/-- The `pii_indicators` table of `PIIDetector.detect_pii`
(pii_detector.py, lines 45-56), in dict insertion order. -/
def piiIndicators : List (String × String) :=
  [("email", "email"), ("phone", "phone"), ("mobile", "phone"), ("ssn", "ssn"),
   ("social_security", "ssn"), ("credit_card", "credit_card"), ("passport", "passport"),
   ("driver_license", "drivers_license"), ("address", "address"),
   ("ip_address", "ip_address")]

/-- Python `str.lower()` for the ASCII field names at hand, applied
character-wise. -/
def pyLower (s : String) : String := ⟨s.data.map Char.toLower⟩

/-- The `for indicator, pii_type in pii_indicators.items()` loop: first
indicator contained in the lowercased field name wins. -/
def findIndicator (fieldLower : String) : Option String :=
  (piiIndicators.find? (fun kv => containsSub fieldLower kv.1)).map (fun kv => kv.2)

/-- Number of samples that are strings matching the SSN pattern. -/
def ssnSampleCount (samples : List Json) : Nat :=
  (samples.filter (fun v => match v with | .str s => matchesSSN s | _ => false)).length

/-- Number of samples that are Luhn-valid card-number strings. -/
def ccSampleCount (samples : List Json) : Nat :=
  (samples.filter (fun v => match v with | .str s => isCreditCard s | _ => false)).length

/-- `PIIDetector.detect_pii` (pii_detector.py, lines 21-73).  `field_path`
is accepted and unused, as in the source. -/
def detectPii (field_path field_name : String) (semantic_type : Option String)
    (sample_values : List Json) : Bool × Option String :=
  if semantic_type = some "email" ∨ semantic_type = some "phone" then
    (true, semantic_type)
  else
    match findIndicator (pyLower field_name) with
    | some piiType => (true, some piiType)
    | none =>
        if sample_values.isEmpty then (false, none)
        else
          if (ssnSampleCount sample_values : ℚ) / (sample_values.length : ℚ) > 1/2 then
            (true, some "ssn")
          else if (ccSampleCount sample_values : ℚ) / (sample_values.length : ℚ) > 1/2 then
            (true, some "credit_card")
          else (false, none)

/-! ## Quality analyzer (`QualityAnalyzer.analyze_field`), numeric block -/

/-- `numeric_values.mean()` over the coerced numeric samples. -/
def sampleMean (xs : List ℚ) : ℚ := xs.sum / (xs.length : ℚ)

/-- `((x - mean) ** 2).sum()`: the sum of squared deviations from the mean. -/
def sumSqDev (xs : List ℚ) : ℚ :=
  (xs.map (fun x => (x - sampleMean xs) ^ 2)).sum

/-- The square under the root of pandas `Series.std()`, which uses
`ddof=1`: `Σ (x - mean)² / (n - 1)`.  (For `n = 1` pandas yields NaN where
rational division by zero yields 0; the theorems only quantify over
`2 ≤ n`.) -/
def pandasVariance (xs : List ℚ) : ℚ :=
  sumSqDev xs / ((xs.length : ℚ) - 1)

/-- The `std_dev` metric computed by `QualityAnalyzer.analyze_field`
(quality_analyzer.py, line 50): `float(numeric_values.std())`, i.e. the
square root of the `ddof=1` variance. -/
noncomputable def stdDevCode (xs : List ℚ) : ℝ :=
  Real.sqrt ((pandasVariance xs : ℚ) : ℝ)

/-- Modelled from the spec: the population standard deviation the claim
says `std_dev` is — `sqrt (Σ (x - mean)² / n)`, divisor `n`, not `n - 1`.
This is the claim-side definition to compare `stdDevCode` against. -/
noncomputable def populationStdDev (xs : List ℚ) : ℝ :=
  Real.sqrt ((sumSqDev xs / (xs.length : ℚ) : ℚ) : ℝ)

/-! ## AI description generator (`AIDescriptionGenerator`) -/

/-- Outcome of one OpenAI API call, as discriminated by the `except` arms
of `_call_openai_with_retry` (ai_generator.py, lines 222-395). -/
inductive ApiOutcome where
  | success (content : String)
  | timeoutErr
  | rateLimited
  | authFailure
  | connectionErr
  | apiErr (status : Option Nat)
  | unexpected

/-- The two exception classes `_call_openai_with_retry` can raise
(`src/core/exceptions.py`): `RateLimitError` or `ExternalServiceError`.
The OpenAI `AuthenticationError` is re-raised as `ExternalServiceError`
(ai_generator.py, lines 322-329). -/
inductive CallError where
  | rateLimitError
  | externalServiceError
deriving DecidableEq

/-- The `while attempt < max_attempts` loop of `_call_openai_with_retry`,
reading the i-th call's outcome from `outcomes`.  `fuel` is
`max_attempts - attempt`; the returned `Nat` counts API calls made.
Retryable outcomes (timeout, rate limit, connection error, 5xx) raise after
`max_attempts` tries; authentication, non-5xx API errors and unexpected
errors raise on the first occurrence without retrying. -/
def retryLoop (outcomes : Nat → ApiOutcome) (fuel i : Nat) : Except CallError String × Nat :=
  match fuel with
  | 0 => (.error .externalServiceError, i)
  | fuel + 1 =>
    match outcomes i with
    | .success c => (.ok c, i + 1)
    | .timeoutErr =>
        if fuel = 0 then (.error .externalServiceError, i + 1)
        else retryLoop outcomes fuel (i + 1)
    | .rateLimited =>
        if fuel = 0 then (.error .rateLimitError, i + 1)
        else retryLoop outcomes fuel (i + 1)
    | .authFailure => (.error .externalServiceError, i + 1)
    | .connectionErr =>
        if fuel = 0 then (.error .externalServiceError, i + 1)
        else retryLoop outcomes fuel (i + 1)
    | .apiErr status =>
        match status with
        | some code =>
            if 500 ≤ code ∧ code < 600 then
              if fuel = 0 then (.error .externalServiceError, i + 1)
              else retryLoop outcomes fuel (i + 1)
            else (.error .externalServiceError, i + 1)
        | none => (.error .externalServiceError, i + 1)
    | .unexpected => (.error .externalServiceError, i + 1)

/-- `AIDescriptionGenerator._call_openai_with_retry` (ai_generator.py,
lines 222-395), as a function of the per-call outcomes and
`settings.OPENAI_MAX_RETRY_ATTEMPTS`. -/
def callOpenaiWithRetry (outcomes : Nat → ApiOutcome) (maxAttempts : Nat) :
    Except CallError String × Nat :=
  retryLoop outcomes maxAttempts 0

/-- Python `str.replace` (all occurrences, leftmost first) on character
lists.  `fuel` is initialized to the list length; every step consumes at
least one character and one unit of fuel, so the guard never fires on the
actual calls. -/
def replaceCharsAux (pat repl : List Char) (fuel : Nat) (l : List Char) : List Char :=
  match fuel, l with
  | 0, l => l
  | _, [] => []
  | fuel + 1, c :: rest =>
    if pat ≠ [] ∧ leadMatch pat (c :: rest) then
      repl ++ replaceCharsAux pat repl fuel (rest.drop (pat.length - 1))
    else c :: replaceCharsAux pat repl fuel rest

/-- Python `s.replace(pat, repl)`. -/
def pyReplace (s pat repl : String) : String :=
  ⟨replaceCharsAux pat.data repl.data s.data.length s.data⟩

/-- Python `str.title()` for the ASCII strings at hand: uppercase a letter
that does not follow a letter, lowercase one that does. -/
def titleCase (s : String) : String :=
  ⟨(s.data.foldl
      (fun (acc : List Char × Bool) c =>
        let r := if c.isAlpha then (if acc.2 then c.toLower else c.toUpper) else c
        (acc.1 ++ [r], c.isAlpha))
      ([], false)).1⟩

/-- `AIDescriptionGenerator._fallback_description` (ai_generator.py,
lines 525-533): `(description, business_name)` built from the field name and
`semantic_type or data_type`. -/
def fallbackDescription (field_name data_type : String) (semantic_type : Option String) :
    String × String :=
  let businessName := titleCase (pyReplace field_name "_" " ")
  (businessName ++ " field of type " ++ (semantic_type.getD data_type), businessName)

/-- `AIDescriptionGenerator._parse_response` (ai_generator.py,
lines 511-523): scan the lines for the `DESCRIPTION:`/`BUSINESS_NAME:`
markers. -/
def parseResponse (content : String) : String × String :=
  (content.splitOn "\n").foldl
    (fun acc line =>
      if line.startsWith "DESCRIPTION:" then ((pyReplace line "DESCRIPTION:" "").trim, acc.2)
      else if line.startsWith "BUSINESS_NAME:" then (acc.1, (pyReplace line "BUSINESS_NAME:" "").trim)
      else acc)
    ("", "")

/-- The error-handling core of `AIDescriptionGenerator.generate_description`
(ai_generator.py, lines 447-484), for a cache miss with a configured client
and a closed circuit breaker: call `_call_openai_with_retry`; on success
parse the response; the `except (RateLimitError, ExternalServiceError)` arm
catches BOTH raisable errors and returns the fallback description. -/
def generateDescription (outcomes : Nat → ApiOutcome) (maxAttempts : Nat)
    (field_name data_type : String) (semantic_type : Option String) : String × String :=
  match (callOpenaiWithRetry outcomes maxAttempts).1 with
  | .ok content => parseResponse content
  | .error _ => fallbackDescription field_name data_type semantic_type

/-! ## XML parser error signals (`XMLParser.parse_file`) -/

/-- What happens inside the `try` block of `XMLParser.parse_file`
(xml_parser.py, lines 110-127): the watchdog of `timeout_utils.with_timeout`
raises `TimeoutError`, `lxml` raises `etree.XMLSyntaxError` on malformed
input, anything else is some other exception. -/
inductive XmlInternalOutcome where
  | completed
  | timeoutRaised
  | syntaxErrorRaised
  | otherErrorRaised
deriving DecidableEq

/-- The exception classes `parse_file` can let escape.  Modelled from the
spec for the class identities: `XMLParseError` and `DTDParseError` are
imported from `src/core/exceptions.py` but that module (in this tree) does
not define them; the spec's error taxonomy lists them as distinct
application exception classes, and `ValidationError` exists in the module.
Only the constructor identities matter here, not the classes' bodies. -/
inductive XmlSignal where
  | success
  | validationError
  | xmlParseError
deriving DecidableEq

/-- The exception translation of `XMLParser.parse_file` (xml_parser.py,
lines 72-153): an oversized file raises `ValidationError` before parsing;
then `except TimeoutError` re-raises as `XMLParseError`,
`except etree.XMLSyntaxError` re-raises as `XMLParseError`, and the
catch-all also re-raises as `XMLParseError`. -/
def parseFileSignal (fileSizeMb maxSizeMb : ℚ) (outcome : XmlInternalOutcome) : XmlSignal :=
  if fileSizeMb > maxSizeMb then .validationError
  else
    match outcome with
    | .completed => .success
    | .timeoutRaised => .xmlParseError
    | .syntaxErrorRaised => .xmlParseError
    | .otherErrorRaised => .xmlParseError

/-! ## Theorems -/

theorem counterKeys_aux (l : List String) (acc : List String) (t : String) :
    t ∈ l.foldl (fun acc t => if t ∈ acc then acc else acc ++ [t]) acc ↔ t ∈ acc ∨ t ∈ l := by
  induction l generalizing acc with
  | nil => simp
  | cons x xs ih =>
      simp only [List.foldl_cons]
      by_cases hx : x ∈ acc
      · rw [if_pos hx]
        rw [ih]
        constructor
        · rintro (h | h)
          · exact Or.inl h
          · exact Or.inr (List.mem_cons_of_mem _ h)
        · rintro (h | h)
          · exact Or.inl h
          · rcases List.mem_cons.mp h with h | h
            · exact Or.inl (h ▸ hx)
            · exact Or.inr h
      · rw [if_neg hx]
        rw [ih]
        simp only [List.mem_append, List.mem_singleton, List.mem_cons]
        tauto

theorem mem_counterKeys (l : List String) (t : String) :
    t ∈ TypeInferrer.counterKeys l ↔ t ∈ l := by
  unfold TypeInferrer.counterKeys
  rw [counterKeys_aux]
  simp

theorem one_lt_length_of_two_mem {α : Type} {xs : List α} {a b : α}
    (ha : a ∈ xs) (hb : b ∈ xs) (hab : a ≠ b) : 1 < xs.length := by
  match xs with
  | [] => cases ha
  | [x] =>
      rw [List.mem_singleton] at ha hb
      exact absurd (ha.trans hb.symm) hab
  | x :: y :: rest => simp [Nat.succ_lt_succ]

theorem effectiveTypes_of_mem_null (l : List String) (hk : 1 < (TypeInferrer.counterKeys l).length)
    (hnull : "null" ∈ l) (hne : l.filter (fun t => t ≠ "null") ≠ []) :
    TypeInferrer.effectiveTypes l = l.filter (fun t => t ≠ "null") := by
  unfold TypeInferrer.effectiveTypes
  rw [if_pos ⟨hk, hnull⟩, if_pos hne]

theorem effectiveTypes_of_not_mem_null (l : List String) (hnull : "null" ∉ l) :
    TypeInferrer.effectiveTypes l = l := by
  unfold TypeInferrer.effectiveTypes
  rw [if_neg]
  intro h
  exact hnull h.2

/-- C2: for every non-empty multiset of observed type tags containing both
`integer` and `float`, `infer_type` returns `float` with confidence
`(integer_count + float_count) / total * 100`, the total taken after
dropping the `null` tag; `{integer:3, float:2}` yields `("float", 100)` and
the empty multiset yields `("unknown", 0)`. -/
theorem C2_infer_type_int_float_widens :
    (∀ l : List String, "integer" ∈ l → "float" ∈ l →
      TypeInferrer.inferType l =
        ("float",
          (((l.filter (fun t => t ≠ "null")).count "integer"
            + (l.filter (fun t => t ≠ "null")).count "float" : ℕ) : ℚ)
          / ((l.filter (fun t => t ≠ "null")).length : ℚ) * 100)) ∧
    TypeInferrer.inferType ["integer", "integer", "integer", "float", "float"] = ("float", 100) ∧
    TypeInferrer.inferType [] = ("unknown", 0) := by
  have main : ∀ l : List String, "integer" ∈ l → "float" ∈ l →
      TypeInferrer.inferType l =
        ("float",
          (((l.filter (fun t => t ≠ "null")).count "integer"
            + (l.filter (fun t => t ≠ "null")).count "float" : ℕ) : ℚ)
          / ((l.filter (fun t => t ≠ "null")).length : ℚ) * 100) := ?_
  · refine ⟨main, ?_, by simp [TypeInferrer.inferType]⟩
    rw [main ["integer", "integer", "integer", "float", "float"] (by decide) (by decide)]
    have h1 : List.filter (fun t => decide (t ≠ "null"))
        ["integer", "integer", "integer", "float", "float"]
        = ["integer", "integer", "integer", "float", "float"] := by decide
    have h2 : List.count "integer" ["integer", "integer", "integer", "float", "float"] = 3 := by
      decide
    have h3 : List.count "float" ["integer", "integer", "integer", "float", "float"] = 2 := by
      decide
    rw [h1, h2, h3]
    norm_num
  intro l hi hf
  have hne : l ≠ [] := by
    intro h
    rw [h] at hi
    cases hi
  have heff : TypeInferrer.effectiveTypes l = l.filter (fun t => t ≠ "null") := by
    by_cases hnull : "null" ∈ l
    · have hk : 1 < (TypeInferrer.counterKeys l).length :=
        one_lt_length_of_two_mem ((mem_counterKeys l _).mpr hi)
          ((mem_counterKeys l _).mpr hnull) (by decide)
      have hfi : "integer" ∈ l.filter (fun t => t ≠ "null") :=
        List.mem_filter.mpr ⟨hi, by decide⟩
      refine effectiveTypes_of_mem_null l hk hnull ?_
      intro h
      rw [h] at hfi
      cases hfi
    · rw [effectiveTypes_of_not_mem_null l hnull]
      symm
      rw [List.filter_eq_self]
      intro a ha
      simp only [decide_eq_true_eq, ne_eq]
      intro h
      exact hnull (h ▸ ha)
  have hieff : "integer" ∈ TypeInferrer.effectiveTypes l := by
    rw [heff]
    exact List.mem_filter.mpr ⟨hi, by decide⟩
  have hfeff : "float" ∈ TypeInferrer.effectiveTypes l := by
    rw [heff]
    exact List.mem_filter.mpr ⟨hf, by decide⟩
  unfold TypeInferrer.inferType
  rw [if_neg hne, if_pos ⟨(mem_counterKeys _ _).mpr hieff, (mem_counterKeys _ _).mpr hfeff⟩, heff]

/-- Strict version of the sort comparison, used to identify sorted
permutations with distinct paths. -/
def pathLt (a b : ParsedField) : Prop := a.field_path < b.field_path

instance : IsAntisymm ParsedField pathLt :=
  ⟨fun _ _ h1 h2 => absurd h2 (lt_asymm h1)⟩

/-- C1, counterexample: the pre-hash string of `_calculate_schema_hash` is
built from `types_seen[0]`, not from the inferred primary type.  A field
whose observations change from `{integer, float}` to `{integer}` keeps the
signature `"a:integer"` — so the SHA-256 digest, a function of this string,
is unchanged — while `infer_type`'s primary type changes from `float`
(widening rule) to `integer`.  This refutes "changing any field's primary
type changes the digest". -/
theorem C1_schema_hash_counterexample :
    schemaString [⟨"a", ["integer", "float"]⟩] = schemaString [⟨"a", ["integer"]⟩] ∧
    (TypeInferrer.inferType ["integer", "float"]).1 = "float" ∧
    (TypeInferrer.inferType ["integer"]).1 = "integer" := by
  refine ⟨rfl, ?_, ?_⟩ <;> rfl

/-- C1, amended: the schema fingerprint sorts the fields by `field_path` and
hashes the concatenated `path:types_seen[0]` entries, so for snapshots whose
fields (with distinct paths, as parser output has) differ only in traversal
order the pre-hash string — hence the digest — is identical.  (Changing a
field's *inferred primary type* need not change the digest; see the
counterexample.) -/
theorem C1_schema_hash_amended (l1 l2 : List ParsedField) (hperm : l1.Perm l2)
    (hnd : (l1.map ParsedField.field_path).Nodup) :
    schemaString l1 = schemaString l2 := by
  unfold schemaString
  have hsortedEq : List.insertionSort pathLe l1 = List.insertionSort pathLe l2 := by
    have hperm12 : (List.insertionSort pathLe l1).Perm (List.insertionSort pathLe l2) :=
      (List.perm_insertionSort pathLe l1).trans
        (hperm.trans (List.perm_insertionSort pathLe l2).symm)
    have hnd1 : ((List.insertionSort pathLe l1).map ParsedField.field_path).Nodup :=
      ((List.perm_insertionSort pathLe l1).map ParsedField.field_path).nodup_iff.mpr hnd
    have hnd2 : ((List.insertionSort pathLe l2).map ParsedField.field_path).Nodup :=
      (hperm12.map ParsedField.field_path).nodup_iff.mp hnd1
    have hs1 : List.Pairwise pathLt (List.insertionSort pathLe l1) := by
      have hle := List.sorted_insertionSort pathLe l1
      have hne : List.Pairwise (fun a b : ParsedField => a.field_path ≠ b.field_path)
          (List.insertionSort pathLe l1) := List.pairwise_map.mp hnd1
      exact (hle.and hne).imp (fun h => lt_of_le_of_ne h.1 h.2)
    have hs2 : List.Pairwise pathLt (List.insertionSort pathLe l2) := by
      have hle := List.sorted_insertionSort pathLe l2
      have hne : List.Pairwise (fun a b : ParsedField => a.field_path ≠ b.field_path)
          (List.insertionSort pathLe l2) := List.pairwise_map.mp hnd2
      exact (hle.and hne).imp (fun h => lt_of_le_of_ne h.1 h.2)
    exact List.eq_of_perm_of_sorted hperm12 hs1 hs2
  rw [hsortedEq]

/-- Witness for C1's amended theorem: two traversal orders of the same
two-field snapshot get the same pre-hash string. -/
theorem C1_schema_hash_amended_witness :
    ([⟨"b", ["string"]⟩, ⟨"a", ["integer"]⟩] : List ParsedField).Perm
        [⟨"a", ["integer"]⟩, ⟨"b", ["string"]⟩] ∧
    (([⟨"b", ["string"]⟩, ⟨"a", ["integer"]⟩] : List ParsedField).map
        ParsedField.field_path).Nodup ∧
    schemaString [⟨"b", ["string"]⟩, ⟨"a", ["integer"]⟩]
      = schemaString [⟨"a", ["integer"]⟩, ⟨"b", ["string"]⟩] :=
  ⟨by decide, by decide,
    C1_schema_hash_amended _ _ (by decide) (by decide)⟩

/-- Witness for C2 at the concrete multiset `{integer, float, null}`: the
null tag is dropped and the widened confidence is 100%. -/
theorem C2_infer_type_int_float_widens_witness :
    "integer" ∈ (["integer", "float", "null"] : List String) ∧
    "float" ∈ (["integer", "float", "null"] : List String) ∧
    TypeInferrer.inferType ["integer", "float", "null"] = ("float", 100) := by
  refine ⟨by decide, by decide, ?_⟩
  rw [C2_infer_type_int_float_widens.1 ["integer", "float", "null"] (by decide) (by decide)]
  have h1 : List.filter (fun t => decide (t ≠ "null")) ["integer", "float", "null"]
      = ["integer", "float"] := by decide
  have h2 : List.count "integer" ["integer", "float"] = 1 := by decide
  have h3 : List.count "float" ["integer", "float"] = 1 := by decide
  rw [h1, h2, h3]
  norm_num

theorem pathsWithType_append (cs ds : List ChangeRec) (t : ChangeType) :
    pathsWithType (cs ++ ds) t = pathsWithType cs t ++ pathsWithType ds t := by
  unfold pathsWithType
  rw [List.filter_append, List.map_append]

theorem pathsWithType_addedChanges (m1 m2 : List (String × DbField)) :
    pathsWithType (addedChanges m1 m2) ChangeType.added
      = (m2.filter (fun kv => !hasKey m1 kv.1)).map Prod.fst := by
  unfold pathsWithType addedChanges
  rw [List.filter_map, List.map_map]
  simp [Function.comp]

theorem pathsWithType_removedChanges (m1 m2 : List (String × DbField)) :
    pathsWithType (removedChanges m1 m2) ChangeType.removed
      = (m1.filter (fun kv => !hasKey m2 kv.1)).map Prod.fst := by
  unfold pathsWithType removedChanges
  rw [List.filter_map, List.map_map]
  simp [Function.comp]

theorem pathsWithType_addedChanges_ne (m1 m2 : List (String × DbField)) (t : ChangeType)
    (ht : t ≠ ChangeType.added) :
    pathsWithType (addedChanges m1 m2) t = [] := by
  unfold pathsWithType addedChanges
  rw [List.filter_map]
  have : List.filter ((fun c : ChangeRec => decide (c.change_type = t)) ∘
      (fun kv : String × DbField =>
        { change_type := ChangeType.added, field_path := kv.1, is_breaking := false }))
      (m2.filter (fun kv => !hasKey m1 kv.1)) = [] := by
    rw [List.filter_eq_nil_iff]
    intro a _
    simp only [Function.comp, decide_eq_true_eq]
    exact fun h => ht h.symm
  rw [this]
  rfl

theorem pathsWithType_removedChanges_ne (m1 m2 : List (String × DbField)) (t : ChangeType)
    (ht : t ≠ ChangeType.removed) :
    pathsWithType (removedChanges m1 m2) t = [] := by
  unfold pathsWithType removedChanges
  rw [List.filter_map]
  have : List.filter ((fun c : ChangeRec => decide (c.change_type = t)) ∘
      (fun kv : String × DbField =>
        { change_type := ChangeType.removed, field_path := kv.1, is_breaking := true }))
      (m1.filter (fun kv => !hasKey m2 kv.1)) = [] := by
    rw [List.filter_eq_nil_iff]
    intro a _
    simp only [Function.comp, decide_eq_true_eq]
    exact fun h => ht h.symm
  rw [this]
  rfl

theorem mem_modifiedChanges_change_type {m1 m2 : List (String × DbField)} {c : ChangeRec}
    (hc : c ∈ modifiedChanges m1 m2) : c.change_type = ChangeType.modified := by
  unfold modifiedChanges at hc
  rcases List.mem_filterMap.mp hc with ⟨kv, _, hkv⟩
  split at hkv
  · cases hkv
  · split at hkv
    · cases hkv
      rfl
    · cases hkv

theorem pathsWithType_modifiedChanges_ne (m1 m2 : List (String × DbField)) (t : ChangeType)
    (ht : t ≠ ChangeType.modified) :
    pathsWithType (modifiedChanges m1 m2) t = [] := by
  unfold pathsWithType
  have : List.filter (fun c : ChangeRec => decide (c.change_type = t)) (modifiedChanges m1 m2)
      = [] := by
    rw [List.filter_eq_nil_iff]
    intro c hc
    simp only [decide_eq_true_eq]
    intro h
    exact ht (h.symm.trans (mem_modifiedChanges_change_type hc))
  rw [this]
  rfl

theorem compare_added_paths (v1 v2 : List DbField) :
    pathsWithType (compareVersions v1 v2) ChangeType.added
      = ((buildMap v2).filter (fun kv => !hasKey (buildMap v1) kv.1)).map Prod.fst := by
  unfold compareVersions
  rw [pathsWithType_append, pathsWithType_append]
  rw [pathsWithType_addedChanges,
      pathsWithType_removedChanges_ne _ _ _ (by decide),
      pathsWithType_modifiedChanges_ne _ _ _ (by decide)]
  simp

theorem compare_removed_paths (v1 v2 : List DbField) :
    pathsWithType (compareVersions v1 v2) ChangeType.removed
      = ((buildMap v1).filter (fun kv => !hasKey (buildMap v2) kv.1)).map Prod.fst := by
  unfold compareVersions
  rw [pathsWithType_append, pathsWithType_append]
  rw [pathsWithType_removedChanges,
      pathsWithType_addedChanges_ne _ _ _ (by decide),
      pathsWithType_modifiedChanges_ne _ _ _ (by decide)]
  simp

/-- C3: for every pair of snapshots, the set of field paths reported as
`added` by `compare_versions(v1, v2)` equals the set reported as `removed`
by `compare_versions(v2, v1)`, and vice versa.  (The underlying path lists
are in fact equal element for element.) -/
theorem C3_diff_added_removed_symmetry (v1 v2 : List DbField) (p : String) :
    (p ∈ pathsWithType (compareVersions v1 v2) ChangeType.added
      ↔ p ∈ pathsWithType (compareVersions v2 v1) ChangeType.removed) ∧
    (p ∈ pathsWithType (compareVersions v1 v2) ChangeType.removed
      ↔ p ∈ pathsWithType (compareVersions v2 v1) ChangeType.added) := by
  constructor
  · rw [compare_added_paths, compare_removed_paths]
  · rw [compare_removed_paths, compare_added_paths]

theorem mem_modifiedChanges_spec {m1 m2 : List (String × DbField)} {c : ChangeRec}
    (hc : c ∈ modifiedChanges m1 m2) :
    ∃ f1 f2 : DbField, (c.field_path, f1) ∈ m1
      ∧ m2.lookup c.field_path = some f2
      ∧ fieldsDiffer f1 f2 = true
      ∧ c.is_breaking = isBreakingChange f1 f2 := by
  unfold modifiedChanges at hc
  rcases List.mem_filterMap.mp hc with ⟨kv, hmem, hkv⟩
  obtain ⟨k, f1⟩ := kv
  split at hkv
  · cases hkv
  · rename_i f2 hlook
    split at hkv
    · rename_i hdiff
      cases hkv
      exact ⟨f1, f2, hmem, hlook, hdiff, rfl⟩
    · cases hkv

/-- C4: in the version diff every `added` record is non-breaking and every
`removed` record is breaking; a `modified` record (emitted when
`_fields_differ` holds) is breaking exactly when the data type changed, the
field went from nullable to non-nullable, or the array flag changed; a
change only in `semantic_type` or only in the PII flag yields a modified,
non-breaking record. -/
theorem C4_breaking_change_rules :
    (∀ (v1 v2 : List DbField) (c : ChangeRec), c ∈ compareVersions v1 v2 →
      (c.change_type = ChangeType.added → c.is_breaking = false) ∧
      (c.change_type = ChangeType.removed → c.is_breaking = true) ∧
      (c.change_type = ChangeType.modified →
        ∃ f1 f2 : DbField, (c.field_path, f1) ∈ buildMap v1
          ∧ (buildMap v2).lookup c.field_path = some f2
          ∧ fieldsDiffer f1 f2 = true
          ∧ c.is_breaking = isBreakingChange f1 f2)) ∧
    (∀ f1 f2 : DbField,
      isBreakingChange f1 f2 = true ↔
        (f1.data_type ≠ f2.data_type
          ∨ (f1.is_nullable = true ∧ f2.is_nullable = false)
          ∨ f1.is_array ≠ f2.is_array)) ∧
    (∀ f1 f2 : DbField, f1.data_type = f2.data_type → f1.is_nullable = f2.is_nullable →
      f1.is_array = f2.is_array →
      (f1.semantic_type ≠ f2.semantic_type ∨ f1.is_pii ≠ f2.is_pii) →
      fieldsDiffer f1 f2 = true ∧ isBreakingChange f1 f2 = false) := by
  refine ⟨?_, ?_, ?_⟩
  · intro v1 v2 c hc
    unfold compareVersions at hc
    rcases List.mem_append.mp hc with h | hmod
    · rcases List.mem_append.mp h with hadd | hrem
      · unfold addedChanges at hadd
        rcases List.mem_map.mp hadd with ⟨kv, _, hc'⟩
        subst hc'
        refine ⟨fun _ => rfl, ?_, ?_⟩
        · intro h
          simp at h
        · intro h
          simp at h
      · unfold removedChanges at hrem
        rcases List.mem_map.mp hrem with ⟨kv, _, hc'⟩
        subst hc'
        refine ⟨?_, fun _ => rfl, ?_⟩
        · intro h
          simp at h
        · intro h
          simp at h
    · have hmt := mem_modifiedChanges_change_type hmod
      refine ⟨?_, ?_, fun _ => mem_modifiedChanges_spec hmod⟩
      · intro h
        rw [hmt] at h
        exact absurd h (by decide)
      · intro h
        rw [hmt] at h
        exact absurd h (by decide)
  · intro f1 f2
    unfold isBreakingChange
    cases hn1 : f1.is_nullable <;> cases hn2 : f2.is_nullable <;>
      by_cases h1 : f1.data_type = f2.data_type <;> by_cases h3 : f1.is_array = f2.is_array <;>
        simp [h1, h3, hn1, hn2]
  · intro f1 f2 hdt hnul harr hdiff
    constructor
    · unfold fieldsDiffer
      rcases hdiff with h | h
      · simp [h]
      · simp [h]
    · unfold isBreakingChange
      rw [if_neg (by simp [hdt]), if_neg (by rw [hnul]; cases f2.is_nullable <;> simp),
        if_neg (by simp [harr])]

/-- Witness for C4: a concrete removed record is breaking, and a concrete
semantic-type-only change is modified but non-breaking. -/
theorem C4_breaking_change_rules_witness :
    ((⟨ChangeType.removed, "a", true⟩ : ChangeRec)
        ∈ compareVersions [⟨"a", "string", some "email", false, false, false⟩] []) ∧
    (⟨ChangeType.removed, "a", true⟩ : ChangeRec).is_breaking = true ∧
    (fieldsDiffer ⟨"a", "string", some "email", false, false, false⟩
        ⟨"a", "string", some "phone", false, false, false⟩ = true ∧
      isBreakingChange ⟨"a", "string", some "email", false, false, false⟩
        ⟨"a", "string", some "phone", false, false, false⟩ = false) :=
  ⟨by decide,
    (C4_breaking_change_rules.1 [⟨"a", "string", some "email", false, false, false⟩] []
      ⟨ChangeType.removed, "a", true⟩ (by decide)).2.1 rfl,
    C4_breaking_change_rules.2.2 ⟨"a", "string", some "email", false, false, false⟩
      ⟨"a", "string", some "phone", false, false, false⟩ rfl rfl rfl
      (Or.inl (by decide))⟩

/-- C5: observing `{"$oid": h}` (with `h` a 24-character hex string) under a
field named `k` records the `mongodb_objectid` tag with the bare hex string
as the sample value — not the wrapper object — and the resulting field map
contains exactly the one path `k`, with no paths beneath it.  Moreover any
dict bearing a MongoDB type-wrapper marker is a leaf for the MongoDB
`_extract_fields`: recursing into it adds no field paths at all. -/
theorem C5_mongodb_oid_leaf :
    (∀ (k h : String), isHex24 h = true →
      k ≠ "$oid" → k ≠ "$date" → k ≠ "$numberLong" → k ≠ "$numberDecimal" → k ≠ "$binary" →
      mongoExtractFields defaultMaxDepth (Json.obj [(k, Json.obj [("$oid", Json.str h)])]) "" [] 0
        = [(k, { field_path := k, field_name := k, parent_path := "", nesting_level := 0,
                 values := [Json.str h], types_seen := ["mongodb_objectid"],
                 null_count := 0, total_count := 1, is_array := false,
                 array_item_types := [] })]) ∧
    (∀ (maxDepth : Nat) (kvs : List (String × Json)) (parentPath : String) (m : FMap)
        (depth : Nat),
      isMongoTypeWrapper (Json.obj kvs) = true →
      mongoExtractFields maxDepth (Json.obj kvs) parentPath m depth = m) := by
  constructor
  · intro k h hhex hk1 hk2 hk3 hk4 hk5
    simp only [mongoExtractFields, mongoExtractMembers, isMongoTypeWrapper, objMember,
      objGet, childPath, fmapHas, fmapAdd, fmapUpdate, FieldMeta.init, mongoObserveValue,
      markMongo, setAdd, addSample, Json.isDictOrList, defaultMaxDepth, List.lookup,
      List.any_cons, List.any_nil, List.map_cons, List.map_nil, List.all_nil,
      List.length_nil, hhex, hk1, hk2, hk3, hk4, hk5]
    simp [hk1, hk2, hk3, hk4, hk5, hhex]
  · intro maxDepth kvs parentPath m depth hw
    by_cases hd : depth > maxDepth
    · simp [mongoExtractFields, hd]
    · simp [mongoExtractFields, hd, hw]

/-- Witness for C5 at the spec's example ObjectId. -/
theorem C5_mongodb_oid_leaf_witness :
    isHex24 "507f1f77bcf86cd799439011" = true ∧
    mongoExtractFields defaultMaxDepth
        (Json.obj [("_id", Json.obj [("$oid", Json.str "507f1f77bcf86cd799439011")])]) "" [] 0
      = [("_id", { field_path := "_id", field_name := "_id", parent_path := "",
                   nesting_level := 0, values := [Json.str "507f1f77bcf86cd799439011"],
                   types_seen := ["mongodb_objectid"], null_count := 0, total_count := 1,
                   is_array := false, array_item_types := [] })] :=
  ⟨by decide,
    C5_mongodb_oid_leaf.1 "_id" "507f1f77bcf86cd799439011" (by decide) (by decide) (by decide)
      (by decide) (by decide) (by decide)⟩

theorem not_creditCard_of_ssn (s : String) (h : matchesSSN s = true) :
    isCreditCard s = false := by
  unfold matchesSSN at h
  split at h
  · rename_i a b c d e f g h9 h10 heq
    unfold isCreditCard ccDigits
    rw [heq]
    have hdash : ('-' : Char).isDigit = false := by decide
    simp [grabFourDigits, hdash]
  · cases h

theorem ssn_cc_counts_le (samples : List Json) :
    ssnSampleCount samples + ccSampleCount samples ≤ samples.length := by
  induction samples with
  | nil => simp [ssnSampleCount, ccSampleCount]
  | cons v rest ih =>
      unfold ssnSampleCount ccSampleCount
      unfold ssnSampleCount ccSampleCount at ih
      rw [List.filter_cons, List.filter_cons]
      cases v with
      | str s =>
          by_cases hs : matchesSSN s = true
          · have hcc : isCreditCard s = false := not_creditCard_of_ssn s hs
            simp only [hs, hcc, if_true, Bool.false_eq_true, if_false, List.length_cons]
            omega
          · by_cases hc : isCreditCard s = true
            · simp only [hs, hc, if_true, Bool.false_eq_true, if_false, List.length_cons]
              omega
            · simp only [hs, hc, Bool.false_eq_true, if_false, List.length_cons]
              omega
      | null =>
          simp only [Bool.false_eq_true, if_false, List.length_cons]
          omega
      | bool b =>
          simp only [Bool.false_eq_true, if_false, List.length_cons]
          omega
      | int n =>
          simp only [Bool.false_eq_true, if_false, List.length_cons]
          omega
      | float q =>
          simp only [Bool.false_eq_true, if_false, List.length_cons]
          omega
      | arr xs =>
          simp only [Bool.false_eq_true, if_false, List.length_cons]
          omega
      | obj kvs =>
          simp only [Bool.false_eq_true, if_false, List.length_cons]
          omega

/-- C6, amended: `detect_pii` returns `(True, semantic_type)` for email or
phone semantic types; otherwise returns the indicator-table type when the
lowercased field name contains an indicator; otherwise flags SSN when
STRICTLY more than 50% of the samples match the SSN shape and flags
credit_card when STRICTLY more than 50% are Luhn-valid card-number strings
(the code tests `> 0.5`, not `≥`; no string matches both shapes, so a card
majority forces the SSN test false); and
`detect_pii(path, "user_ssn", None, ["123-45-6789"])` returns
`(True, "ssn")` via the name indicator. -/
theorem C6_detect_pii_rules :
    (∀ (p n : String) (st : Option String) (samples : List Json),
      (st = some "email" ∨ st = some "phone") → detectPii p n st samples = (true, st)) ∧
    (∀ (p n : String) (st : Option String) (samples : List Json) (t : String),
      st ≠ some "email" → st ≠ some "phone" →
      findIndicator (pyLower n) = some t → detectPii p n st samples = (true, some t)) ∧
    (∀ (p n : String) (st : Option String) (samples : List Json),
      st ≠ some "email" → st ≠ some "phone" →
      findIndicator (pyLower n) = none → samples ≠ [] →
      (ssnSampleCount samples : ℚ) / (samples.length : ℚ) > 1/2 →
      detectPii p n st samples = (true, some "ssn")) ∧
    (∀ (p n : String) (st : Option String) (samples : List Json),
      st ≠ some "email" → st ≠ some "phone" →
      findIndicator (pyLower n) = none → samples ≠ [] →
      (ccSampleCount samples : ℚ) / (samples.length : ℚ) > 1/2 →
      detectPii p n st samples = (true, some "credit_card")) ∧
    detectPii "user.ssn" "user_ssn" none [Json.str "123-45-6789"] = (true, some "ssn") := by
  refine ⟨?_, ?_, ?_, ?_, ?_⟩
  · intro p n st samples hst
    unfold detectPii
    rw [if_pos hst]
  · intro p n st samples t h1 h2 hind
    unfold detectPii
    rw [if_neg (not_or.mpr ⟨h1, h2⟩), hind]
  · intro p n st samples h1 h2 hind hne hmaj
    unfold detectPii
    rw [if_neg (not_or.mpr ⟨h1, h2⟩), hind]
    have hemp : samples.isEmpty = false := by
      cases samples with
      | nil => exact absurd rfl hne
      | cons a l => rfl
    rw [hemp]
    simp only [Bool.false_eq_true, if_false]
    rw [if_pos hmaj]
  · intro p n st samples h1 h2 hind hne hcc
    unfold detectPii
    rw [if_neg (not_or.mpr ⟨h1, h2⟩), hind]
    have hemp : samples.isEmpty = false := by
      cases samples with
      | nil => exact absurd rfl hne
      | cons a l => rfl
    rw [hemp]
    simp only [Bool.false_eq_true, if_false]
    have hL0 : 0 < samples.length := by
      cases samples with
      | nil => exact absurd rfl hne
      | cons a l => simp
    have hLq : (0 : ℚ) < (samples.length : ℚ) := by exact_mod_cast hL0
    have hsum := ssn_cc_counts_le samples
    have hssn : ¬ ((ssnSampleCount samples : ℚ) / (samples.length : ℚ) > 1/2) := by
      intro hs
      rw [gt_iff_lt, lt_div_iff₀ hLq] at hs
      have hcc' := hcc
      rw [gt_iff_lt, lt_div_iff₀ hLq] at hcc'
      have hq : (ssnSampleCount samples : ℚ) + (ccSampleCount samples : ℚ)
          ≤ (samples.length : ℚ) := by exact_mod_cast hsum
      linarith
    rw [if_neg hssn, if_pos hcc]
  · have hind : findIndicator (pyLower "user_ssn") = some "ssn" := by decide
    unfold detectPii
    rw [if_neg (by decide), hind]

/-- C6, counterexample: with exactly 50% of the samples matching the SSN
shape (one of two), the claim's "at least 50%" threshold demands
`(True, "ssn")`, but the code's strict `> 0.5` test yields
`(False, None)`. -/
theorem C6_detect_pii_counterexample :
    2 * ssnSampleCount [Json.str "123-45-6789", Json.str "x"]
        = ([Json.str "123-45-6789", Json.str "x"] : List Json).length ∧
    detectPii "a" "a" none [Json.str "123-45-6789", Json.str "x"] = (false, none) := by
  constructor
  · decide
  · unfold detectPii
    rw [if_neg (by decide), show findIndicator (pyLower "a") = none from by decide]
    have hssn : ssnSampleCount [Json.str "123-45-6789", Json.str "x"] = 1 := by decide
    have hcc : ccSampleCount [Json.str "123-45-6789", Json.str "x"] = 0 := by decide
    simp only [hssn, hcc, List.length_cons, List.length_nil, List.isEmpty_cons,
      Bool.false_eq_true, if_false]
    rw [if_neg (by norm_num), if_neg (by norm_num)]

/-- Witness for C6's value-majority rules: a single SSN-shaped sample is a
strict majority, and so is a single Luhn-valid card-number sample. -/
theorem C6_detect_pii_rules_witness :
    findIndicator (pyLower "a") = none ∧
    ((ssnSampleCount [Json.str "123-45-6789"] : ℚ)
      / (([Json.str "123-45-6789"] : List Json).length : ℚ) > 1/2) ∧
    detectPii "a" "a" none [Json.str "123-45-6789"] = (true, some "ssn") ∧
    ((ccSampleCount [Json.str "4111111111111111"] : ℚ)
      / (([Json.str "4111111111111111"] : List Json).length : ℚ) > 1/2) ∧
    detectPii "a" "a" none [Json.str "4111111111111111"] = (true, some "credit_card") := by
  refine ⟨by decide, ?_, ?_, ?_, ?_⟩
  · have h : ssnSampleCount [Json.str "123-45-6789"] = 1 := by decide
    rw [h]
    norm_num
  · refine C6_detect_pii_rules.2.2.1 "a" "a" none [Json.str "123-45-6789"]
      (by decide) (by decide) (by decide) (by simp) ?_
    have h : ssnSampleCount [Json.str "123-45-6789"] = 1 := by decide
    rw [h]
    norm_num
  · have h : ccSampleCount [Json.str "4111111111111111"] = 1 := by decide
    rw [h]
    norm_num
  · refine C6_detect_pii_rules.2.2.2.1 "a" "a" none [Json.str "4111111111111111"]
      (by decide) (by decide) (by decide) (by simp) ?_
    have h : ccSampleCount [Json.str "4111111111111111"] = 1 := by decide
    rw [h]
    norm_num

/-- C7 (code bug): `parse_file` promises a distinct timeout signal (its
docstring lists `TimeoutError` and the spec calls it "a distinct timeout
signal"), but the `except TimeoutError` arm re-raises `XMLParseError` — the
very class raised for malformed XML — so for any in-budget file size a
timeout and a syntax error produce the SAME signal and the caller cannot
distinguish them by error type alone. -/
theorem C7_xml_timeout_signal_not_distinct (s m : ℚ) (hsize : ¬ s > m) :
    parseFileSignal s m XmlInternalOutcome.timeoutRaised
      = parseFileSignal s m XmlInternalOutcome.syntaxErrorRaised ∧
    parseFileSignal s m XmlInternalOutcome.timeoutRaised = XmlSignal.xmlParseError := by
  unfold parseFileSignal
  rw [if_neg hsize]
  exact ⟨rfl, rfl⟩

/-- Witness for C7 at a 1 MB file with a 50 MB ceiling. -/
theorem C7_xml_timeout_signal_not_distinct_witness :
    ¬ (1 : ℚ) > 50 ∧
    (parseFileSignal 1 50 XmlInternalOutcome.timeoutRaised
        = parseFileSignal 1 50 XmlInternalOutcome.syntaxErrorRaised ∧
      parseFileSignal 1 50 XmlInternalOutcome.timeoutRaised = XmlSignal.xmlParseError) :=
  ⟨by norm_num, C7_xml_timeout_signal_not_distinct 1 50 (by norm_num)⟩

/-- C8, counterexample: an authentication failure on the first call is
re-raised by `_call_openai_with_retry` as `ExternalServiceError` after
exactly one API call (no retry), and `generate_description`'s
`except (RateLimitError, ExternalServiceError)` arm then catches it and
returns the deterministic fallback — exactly as it does for, say, a
persistent connection failure — instead of propagating it to the caller. -/
theorem C8_auth_failure_degrades_counterexample :
    callOpenaiWithRetry (fun _ => ApiOutcome.authFailure) 3
        = (Except.error CallError.externalServiceError, 1) ∧
    generateDescription (fun _ => ApiOutcome.authFailure) 3 "user_id" "string" none
        = fallbackDescription "user_id" "string" none ∧
    generateDescription (fun _ => ApiOutcome.connectionErr) 3 "user_id" "string" none
        = fallbackDescription "user_id" "string" none ∧
    fallbackDescription "user_id" "string" none
        = ("User Id field of type string", "User Id") := by
  refine ⟨rfl, rfl, rfl, by decide⟩

/-- C8, amended: `_call_openai_with_retry` does not retry an authentication
failure — it raises `ExternalServiceError` after the single call — and
`generate_description` degrades EVERY raisable failure (authentication
included, alongside timeout, rate limit, connection and server errors) to
the deterministic fallback description rather than propagating it. -/
theorem C8_auth_failure_degrades (outcomes : Nat → ApiOutcome) (maxAttempts : Nat)
    (n d : String) (st : Option String)
    (hpos : 0 < maxAttempts) (hauth : outcomes 0 = ApiOutcome.authFailure) :
    callOpenaiWithRetry outcomes maxAttempts
        = (Except.error CallError.externalServiceError, 1) ∧
    (∀ e : CallError, (callOpenaiWithRetry outcomes maxAttempts).1 = Except.error e →
      generateDescription outcomes maxAttempts n d st = fallbackDescription n d st) := by
  constructor
  · obtain ⟨f, rfl⟩ : ∃ f, maxAttempts = f + 1 :=
      ⟨maxAttempts - 1, (Nat.succ_pred_eq_of_pos hpos).symm⟩
    unfold callOpenaiWithRetry retryLoop
    rw [hauth]
  · intro e he
    unfold generateDescription
    rw [he]

/-- Witness for C8's amended theorem on an all-authentication-failure
outcome stream. -/
theorem C8_auth_failure_degrades_witness :
    0 < 3 ∧ (fun _ : Nat => ApiOutcome.authFailure) 0 = ApiOutcome.authFailure ∧
    callOpenaiWithRetry (fun _ => ApiOutcome.authFailure) 3
        = (Except.error CallError.externalServiceError, 1) ∧
    generateDescription (fun _ => ApiOutcome.authFailure) 3 "email" "string" none
        = fallbackDescription "email" "string" none := by
  refine ⟨by decide, rfl, ?_, ?_⟩
  · exact (C8_auth_failure_degrades (fun _ => ApiOutcome.authFailure) 3 "email" "string" none
      (by decide) rfl).1
  · exact (C8_auth_failure_degrades (fun _ => ApiOutcome.authFailure) 3 "email" "string" none
      (by decide) rfl).2 CallError.externalServiceError
      (by rw [(C8_auth_failure_degrades (fun _ => ApiOutcome.authFailure) 3 "email" "string" none
        (by decide) rfl).1])

/-- C9, counterexample: on the sample `[0, 2]` the code's `std_dev`
(pandas `.std()`, `ddof=1`) is `√2`, while the population standard
deviation is `1` — the two disagree, refuting "std_dev is the population
standard deviation (divisor n)". -/
theorem C9_std_dev_counterexample :
    pandasVariance [0, 2] = 2 ∧
    sumSqDev [0, 2] / (([0, 2] : List ℚ).length : ℚ) = 1 ∧
    stdDevCode [0, 2] ≠ populationStdDev [0, 2] := by
  have hmean : sampleMean [0, 2] = 1 := by
    unfold sampleMean
    norm_num
  have hssd : sumSqDev [0, 2] = 2 := by
    unfold sumSqDev
    rw [hmean]
    norm_num
  have h1 : pandasVariance [0, 2] = 2 := by
    unfold pandasVariance
    rw [hssd]
    norm_num
  have h2 : sumSqDev [0, 2] / (([0, 2] : List ℚ).length : ℚ) = 1 := by
    rw [hssd]
    norm_num
  refine ⟨h1, h2, ?_⟩
  unfold stdDevCode populationStdDev
  rw [h1, h2]
  intro heq
  have h21 : (2 : ℝ) = 1 := by
    calc (2 : ℝ) = Real.sqrt ((2 : ℚ) : ℝ) ^ 2 := by
          rw [Real.sq_sqrt (by norm_num)]
          norm_num
    _ = Real.sqrt ((1 : ℚ) : ℝ) ^ 2 := by rw [heq]
    _ = 1 := by
          rw [Real.sq_sqrt (by norm_num)]
          norm_num
  norm_num at h21

/-- C9, amended: the quality analyzer's `std_dev` is the SAMPLE standard
deviation of the sampled values (pandas default `ddof=1`, divisor `n - 1`),
i.e. the nonnegative real whose square is `Σ (x - mean)² / (n - 1)`;
min, max, mean, median and the quartiles are reported alongside it. -/
theorem C9_std_dev_is_sample_std (xs : List ℚ) (hlen : 2 ≤ xs.length) :
    0 ≤ stdDevCode xs ∧
    (stdDevCode xs) ^ 2 = ((sumSqDev xs / ((xs.length : ℚ) - 1) : ℚ) : ℝ) := by
  refine ⟨Real.sqrt_nonneg _, ?_⟩
  unfold stdDevCode pandasVariance
  apply Real.sq_sqrt
  have hnum : 0 ≤ sumSqDev xs := by
    unfold sumSqDev
    apply List.sum_nonneg
    intro x hx
    rcases List.mem_map.mp hx with ⟨y, _, rfl⟩
    positivity
  have hden : (0 : ℚ) < (xs.length : ℚ) - 1 := by
    have h2 : (2 : ℚ) ≤ (xs.length : ℚ) := by exact_mod_cast hlen
    linarith
  have h := div_nonneg hnum (le_of_lt hden)
  exact_mod_cast h

/-- Witness for C9's amended theorem on the two-element sample `[0, 2]`. -/
theorem C9_std_dev_is_sample_std_witness :
    2 ≤ ([0, 2] : List ℚ).length ∧
    (0 ≤ stdDevCode [0, 2] ∧
      (stdDevCode [0, 2]) ^ 2 = ((sumSqDev [0, 2] / ((([0, 2] : List ℚ).length : ℚ) - 1) : ℚ) : ℝ)) :=
  ⟨by simp, C9_std_dev_is_sample_std [0, 2] (by simp)⟩

theorem arrayRootLoop_processed (maxSamples maxDepth : Nat) (items : List Json) :
    ∀ (m : FMap) (p : Nat), p ≤ maxSamples →
      (arrayRootLoop maxSamples maxDepth items m p).2 = min (p + items.length) maxSamples := by
  induction items with
  | nil =>
      intro m p hp
      unfold arrayRootLoop
      simp
      omega
  | cons x rest ih =>
      intro m p hp
      unfold arrayRootLoop
      by_cases h : p ≥ maxSamples
      · rw [if_pos h]
        simp
        omega
      · rw [if_neg h]
        rw [ih _ (p + 1) (by omega)]
        simp only [List.length_cons]
        omega

/-- C10: `parse_file` on an object-root document reports `total_records = 1`
and `is_array = false`; on an array-root document it reports
`is_array = true` and `total_records` equal to the number of records the
sampling loop actually processed — `min(length, max_samples)`, never more
than `max_samples` (whose constructor default is 1000) — the sampled count,
not the true record count of the file. -/
theorem C10_parse_file_record_counts :
    (∀ (maxSamples maxDepth : Nat) (kvs : List (String × Json)),
      (parseFile maxSamples maxDepth (Json.obj kvs)).total_records = 1 ∧
      (parseFile maxSamples maxDepth (Json.obj kvs)).is_array = false) ∧
    (∀ (maxSamples maxDepth : Nat) (items : List Json),
      (parseFile maxSamples maxDepth (Json.arr items)).is_array = true ∧
      (parseFile maxSamples maxDepth (Json.arr items)).total_records
          = min items.length maxSamples ∧
      (parseFile maxSamples maxDepth (Json.arr items)).total_records ≤ maxSamples) ∧
    defaultMaxSamples = 1000 := by
  refine ⟨fun _ _ _ => ⟨rfl, rfl⟩, ?_, rfl⟩
  intro maxSamples maxDepth items
  have h := arrayRootLoop_processed maxSamples maxDepth items [] 0 (Nat.zero_le _)
  rcases hres : arrayRootLoop maxSamples maxDepth items [] 0 with ⟨m, pr⟩
  rw [hres] at h
  simp only [Nat.zero_add] at h
  refine ⟨rfl, ?_, ?_⟩
  · show (parseArrayRoot maxSamples maxDepth items).total_records = min items.length maxSamples
    unfold parseArrayRoot
    rw [hres]
    exact h
  · show (parseArrayRoot maxSamples maxDepth items).total_records ≤ maxSamples
    unfold parseArrayRoot
    rw [hres]
    simp only [h]
    exact Nat.min_le_right _ _
